import Mathlib

/-!
Verification of the peer-identity subsystem of bridge-nodes-rs.

The repository has two source files:

* `src/utils/peer_id.rs` — the Secure Store: seed derivation (SHA3-256),
  ed25519 keypair generation, protobuf + base64 encoding of the private
  key material, persistence under `<home>/.chaincraft/keypair.key` with
  permissions 0700 (directory) and 0600 (file), and peer-id derivation.
* `src/main.rs` — the process entry point, which carries its own,
  simpler copies of save/load that write `keypair.key` in the current
  working directory with no permission handling.

Bytes are modelled as `Nat` values below 256; byte strings as `List Nat`.
Filesystem paths are lists of path segments (`List String`); filesystem
effects are modelled as a trace of operations (`FsOp`) applied to an
explicit state (`FsState`).
-/

/-! ## Base64 (standard alphabet, with padding) — the `base64` crate
`general_purpose::STANDARD` engine used by both source files. -/

/-- The standard base64 alphabet: maps a 6-bit value to its ASCII code. -/
def encTbl (n : Nat) : Nat :=
  if n < 26 then 65 + n
  else if n < 52 then 97 + (n - 26)
  else if n < 62 then 48 + (n - 52)
  else if n = 62 then 43
  else 47

/-- Inverse of the standard base64 alphabet: ASCII code to 6-bit value. -/
def decTbl (c : Nat) : Option Nat :=
  if 65 ≤ c ∧ c ≤ 90 then some (c - 65)
  else if 97 ≤ c ∧ c ≤ 122 then some (c - 97 + 26)
  else if 48 ≤ c ∧ c ≤ 57 then some (c - 48 + 52)
  else if c = 43 then some 62
  else if c = 47 then some 63
  else none

/-- Base64-encode a byte string (standard alphabet, `=` padding), as the
`STANDARD.encode` call in `save_keypair` does.  Output is the list of
ASCII codes of the encoded text. -/
def encodeB64 : List Nat → List Nat
  | a :: b :: c :: rest =>
      encTbl (a / 4) :: encTbl (a % 4 * 16 + b / 16) ::
      encTbl (b % 16 * 4 + c / 64) :: encTbl (c % 64) :: encodeB64 rest
  | [a, b] => [encTbl (a / 4), encTbl (a % 4 * 16 + b / 16), encTbl (b % 16 * 4), 61]
  | [a] => [encTbl (a / 4), encTbl (a % 4 * 16), 61, 61]
  | [] => []

/-- Base64-decode (standard alphabet, padding required, canonical
trailing bits required), as the `STANDARD.decode` call in
`generate_peer_id` does.  `61` is the ASCII code of the padding
character. -/
def decodeB64 : List Nat → Option (List Nat)
  | [] => some []
  | c1 :: c2 :: c3 :: c4 :: rest =>
      match decTbl c1, decTbl c2 with
      | some s1, some s2 =>
          if c3 = 61 then
            if c4 = 61 ∧ rest = [] ∧ s2 % 16 = 0 then
              some [s1 * 4 + s2 / 16]
            else none
          else
            match decTbl c3 with
            | some s3 =>
                if c4 = 61 then
                  if rest = [] ∧ s3 % 4 = 0 then
                    some [s1 * 4 + s2 / 16, s2 % 16 * 16 + s3 / 4]
                  else none
                else
                  match decTbl c4 with
                  | some s4 =>
                      (decodeB64 rest).map
                        (fun tail => (s1 * 4 + s2 / 16) ::
                          (s2 % 16 * 16 + s3 / 4) :: (s3 % 4 * 64 + s4) :: tail)
                  | none => none
            | none => none
      | _, _ => none
  | _ => none

theorem decTbl_encTbl {x : Nat} (h : x < 64) : decTbl (encTbl x) = some x := by
  revert h
  revert x
  decide

theorem encTbl_ne_pad {x : Nat} (h : x < 64) : encTbl x ≠ 61 := by
  revert h
  revert x
  decide

/-- Base64 round-trip: decoding an encoded byte string gives it back. -/
theorem decodeB64_encodeB64 (l : List Nat) (h : ∀ b ∈ l, b < 256) :
    decodeB64 (encodeB64 l) = some l := by
  induction l using encodeB64.induct with
  | case1 a b c rest ih =>
      have ha : a < 256 := h a (by simp)
      have hb : b < 256 := h b (by simp)
      have hc : c < 256 := h c (by simp)
      have ih' := ih (fun x hx => h x (by simp [hx]))
      have d1 : decTbl (encTbl (a / 4)) = some (a / 4) := decTbl_encTbl (by omega)
      have d2 : decTbl (encTbl (a % 4 * 16 + b / 16)) = some (a % 4 * 16 + b / 16) :=
        decTbl_encTbl (by omega)
      have d3 : decTbl (encTbl (b % 16 * 4 + c / 64)) = some (b % 16 * 4 + c / 64) :=
        decTbl_encTbl (by omega)
      have d4 : decTbl (encTbl (c % 64)) = some (c % 64) := decTbl_encTbl (by omega)
      have n3 : encTbl (b % 16 * 4 + c / 64) ≠ 61 := encTbl_ne_pad (by omega)
      have n4 : encTbl (c % 64) ≠ 61 := encTbl_ne_pad (by omega)
      simp [encodeB64, decodeB64, d1, d2, d3, d4, n3, n4, ih']
      omega
  | case2 a b =>
      have ha : a < 256 := h a (by simp)
      have hb : b < 256 := h b (by simp)
      have d1 : decTbl (encTbl (a / 4)) = some (a / 4) := decTbl_encTbl (by omega)
      have d2 : decTbl (encTbl (a % 4 * 16 + b / 16)) = some (a % 4 * 16 + b / 16) :=
        decTbl_encTbl (by omega)
      have d3 : decTbl (encTbl (b % 16 * 4)) = some (b % 16 * 4) := decTbl_encTbl (by omega)
      have n3 : encTbl (b % 16 * 4) ≠ 61 := encTbl_ne_pad (by omega)
      simp [encodeB64, decodeB64, d1, d2, d3, n3, Nat.mul_mod_left]
      omega
  | case3 a =>
      have ha : a < 256 := h a (by simp)
      have d1 : decTbl (encTbl (a / 4)) = some (a / 4) := decTbl_encTbl (by omega)
      have d2 : decTbl (encTbl (a % 4 * 16)) = some (a % 4 * 16) := decTbl_encTbl (by omega)
      simp [encodeB64, decodeB64, d1, d2, Nat.mul_mod_left]
      omega
  | case4 => rfl

/-! ## SHA3-256 — the `sha3` crate `Sha3_256` hasher used by
`seed_phrase_to_bytes` in both source files.  Keccak-f[1600] with
rate 136 bytes and domain-separation suffix 0x06. -/

/-- 64-bit left rotation on `Nat` (values taken modulo 2 to the 64). -/
def rotl64 (x n : Nat) : Nat :=
  ((x <<< (n % 64)) ||| (x >>> (64 - n % 64))) % (2 ^ 64)

/-- The Keccak state: a 5 by 5 matrix of 64-bit lanes. -/
def KSt : Type := Fin 5 → Fin 5 → Nat

/-- Column parity used by the theta step. -/
def kParity (A : KSt) (x : Fin 5) : Nat :=
  A x 0 ^^^ A x 1 ^^^ A x 2 ^^^ A x 3 ^^^ A x 4

/-- Keccak theta step. -/
def kTheta (A : KSt) : KSt :=
  fun x y => A x y ^^^ kParity A (x - 1) ^^^ rotl64 (kParity A (x + 1)) 1

/-- Rho rotation offsets, indexed as `rhoOffsets[x][y]`. -/
def rhoOffsets : List (List Nat) :=
  [[0, 36, 3, 41, 18],
   [1, 44, 10, 45, 2],
   [62, 6, 43, 15, 61],
   [28, 55, 25, 21, 56],
   [27, 20, 39, 8, 14]]

/-- Keccak rho step. -/
def kRho (A : KSt) : KSt :=
  fun x y => rotl64 (A x y) (((rhoOffsets.getD x.val []).getD y.val 0))

/-- Keccak pi step. -/
def kPi (A : KSt) : KSt :=
  fun x y => A (x + 3 * y) x

/-- Keccak chi step. -/
def kChi (A : KSt) : KSt :=
  fun x y => A x y ^^^ ((((2 ^ 64) - 1) ^^^ A (x + 1) y) &&& A (x + 2) y)

/-- Keccak iota step: mix the round constant into lane (0, 0). -/
def kIota (rc : Nat) (A : KSt) : KSt :=
  fun x y => if x = 0 ∧ y = 0 then A x y ^^^ rc else A x y

/-- The 24 Keccak-f[1600] round constants. -/
def keccakRC : List Nat :=
  [0x0000000000000001, 0x0000000000008082, 0x800000000000808a, 0x8000000080008000,
   0x000000000000808b, 0x0000000080000001, 0x8000000080008081, 0x8000000000008009,
   0x000000000000008a, 0x0000000000000088, 0x0000000080008009, 0x000000008000000a,
   0x000000008000808b, 0x800000000000008b, 0x8000000000008089, 0x8000000000008003,
   0x8000000000008002, 0x8000000000000080, 0x000000000000800a, 0x800000008000000a,
   0x8000000080008081, 0x8000000000008080, 0x0000000080000001, 0x8000000080008008]

/-- One Keccak round. -/
def keccakRound (A : KSt) (rc : Nat) : KSt :=
  kIota rc (kChi (kPi (kRho (kTheta A))))

/-- The full Keccak-f[1600] permutation: 24 rounds. -/
def keccakF (A : KSt) : KSt :=
  keccakRC.foldl keccakRound A

/-- A lane value from up to 8 bytes, little endian. -/
def laneOfBytes (bs : List Nat) : Nat :=
  bs.foldr (fun b acc => acc * 256 + b) 0

/-- The `k` low-order bytes of a lane, little endian. -/
def toLEBytes : Nat → Nat → List Nat
  | 0, _ => []
  | k + 1, v => v % 256 :: toLEBytes k (v / 256)

/-- Serialize the first `n` lanes of the state (lane order `x + 5 * y`),
8 bytes each, little endian. -/
def lanesBytes (A : KSt) : Nat → List Nat
  | 0 => []
  | n + 1 =>
      lanesBytes A n ++
        toLEBytes 8 (A ⟨n % 5, Nat.mod_lt n (by omega)⟩ ⟨n / 5 % 5, Nat.mod_lt _ (by omega)⟩)

/-- Absorb one 136-byte block: xor it into the first 17 lanes, then
apply the permutation. -/
def absorbBlock (A : KSt) (block : List Nat) : KSt :=
  keccakF (fun x y =>
    if x.val + 5 * y.val < 17 then
      A x y ^^^ laneOfBytes ((block.drop (8 * (x.val + 5 * y.val))).take 8)
    else A x y)

/-- SHA3 padding: domain suffix 0x06, zero fill, final bit 0x80; pads to
a positive multiple of the 136-byte rate. -/
def sha3Pad (msg : List Nat) : List Nat :=
  let q := 136 - msg.length % 136
  if q = 1 then msg ++ [0x86]
  else msg ++ [0x06] ++ List.replicate (q - 2) 0 ++ [0x80]

/-- Split a byte string into 136-byte chunks. -/
def chunks136 (l : List Nat) : List (List Nat) :=
  if h : l = [] then []
  else l.take 136 :: chunks136 (l.drop 136)
termination_by l.length
decreasing_by
  have : 0 < l.length := List.length_pos.mpr h
  simp [List.length_drop]
  omega

/-- SHA3-256 of a byte string: absorb all padded blocks into the
all-zero state, then take the first 32 bytes of the state. -/
def sha3_256 (msg : List Nat) : List Nat :=
  let final := (chunks136 (sha3Pad msg)).foldl absorbBlock (fun _ _ => 0)
  (lanesBytes final 25).take 32

theorem toLEBytes_length (k : Nat) : ∀ v, (toLEBytes k v).length = k := by
  induction k with
  | zero => intro v; rfl
  | succ n ih => intro v; simp [toLEBytes, ih]

theorem lanesBytes_length (A : KSt) (n : Nat) : (lanesBytes A n).length = 8 * n := by
  induction n with
  | zero => rfl
  | succ m ih => simp [lanesBytes, ih, toLEBytes_length]; omega

/-- SHA3-256 always produces exactly 32 bytes. -/
theorem sha3_256_length (msg : List Nat) : (sha3_256 msg).length = 32 := by
  unfold sha3_256
  simp [List.length_take, lanesBytes_length]

theorem toLEBytes_lt (k : Nat) : ∀ v, ∀ b ∈ toLEBytes k v, b < 256 := by
  induction k with
  | zero =>
      intro v b hb
      simp [toLEBytes] at hb
  | succ n ih =>
      intro v b hb
      simp [toLEBytes] at hb
      rcases hb with h | h
      · omega
      · exact ih _ b h

theorem lanesBytes_lt (A : KSt) (n : Nat) : ∀ b ∈ lanesBytes A n, b < 256 := by
  induction n with
  | zero =>
      intro b hb
      simp [lanesBytes] at hb
  | succ m ih =>
      intro b hb
      simp [lanesBytes] at hb
      rcases hb with h | h
      · exact ih b h
      · exact toLEBytes_lt 8 _ b h

/-- Every byte of a SHA3-256 digest is below 256. -/
theorem sha3_256_bytes_lt (msg : List Nat) : ∀ b ∈ sha3_256 msg, b < 256 := by
  intro b hb
  unfold sha3_256 at hb
  exact lanesBytes_lt _ 25 b (List.take_subset _ _ hb)

/-! ## Keypairs and their protobuf encoding — `libp2p::identity`.

Only ed25519 keypairs occur in this repository.  An ed25519 keypair is a
32-byte secret (the seed) together with the 32-byte public key derived
from it by the curve arithmetic.  The curve derivation itself is an
external primitive with no bearing on any claim, so every definition
that needs it takes it as an explicit argument `pubOf`; all theorems
hold for an arbitrary derivation function. -/

/-- An ed25519 keypair: 32 secret bytes and 32 public bytes. -/
structure Keypair where
  secret : List Nat
  public : List Nat
deriving DecidableEq

/-- Well-formedness of a keypair under a public-key derivation `pubOf`:
both halves are 32 bytes of values below 256 and the public half is the
one derived from the secret half. -/
def KeypairWF (pubOf : List Nat → List Nat) (k : Keypair) : Prop :=
  k.secret.length = 32 ∧ k.public.length = 32 ∧
    (∀ b ∈ k.secret, b < 256) ∧ (∀ b ∈ k.public, b < 256) ∧
    k.public = pubOf k.secret

/-- `Keypair::ed25519_from_bytes`: accepts exactly 32 bytes (the only
acceptance criterion of the underlying primitive) and derives the
public half; `none` models the `DecodingError` on any other length. -/
def ed25519_from_bytes (pubOf : List Nat → List Nat) (bytes : List Nat) : Option Keypair :=
  if bytes.length = 32 then some ⟨bytes, pubOf bytes⟩ else none

/-- `Keypair::generate_ed25519`: a fresh keypair from the 32 random
bytes `rng` drawn from the CSPRNG. -/
def generate_ed25519 (pubOf : List Nat → List Nat) (rng : List Nat) : Keypair :=
  ⟨rng, pubOf rng⟩

/-- `Keypair::to_protobuf_encoding` for an ed25519 keypair: the
protobuf message `PrivateKey { Type = Ed25519 (= 1), Data = secret ++
public }`, i.e. field 1 as varint 1 and field 2 as 64 length-prefixed
bytes.  Infallible for ed25519 keys. -/
def to_protobuf_encoding (k : Keypair) : List Nat :=
  8 :: 1 :: 18 :: 64 :: (k.secret ++ k.public)

/-- `Keypair::from_protobuf_encoding` restricted to the single-byte
varint domain (which covers every encoder output): parse the
`PrivateKey` message, require the ed25519 key type and a 64-byte body,
split it into the two halves and check that the public half matches the
secret half. -/
def from_protobuf_encoding (pubOf : List Nat → List Nat) (bytes : List Nat) : Option Keypair :=
  match bytes with
  | 8 :: t :: 18 :: n :: data =>
      if t = 1 ∧ n = data.length ∧ data.length = 64 then
        let secret := data.take 32
        let pub := data.drop 32
        if pub = pubOf secret then some ⟨secret, pub⟩ else none
      else none
  | _ => none

/-- Protobuf round-trip: decoding an encoded well-formed keypair gives
it back, both halves included. -/
theorem from_to_protobuf (pubOf : List Nat → List Nat) (k : Keypair)
    (hwf : KeypairWF pubOf k) :
    from_protobuf_encoding pubOf (to_protobuf_encoding k) = some k := by
  obtain ⟨hs, hp, _, _, hd⟩ := hwf
  simp only [to_protobuf_encoding, from_protobuf_encoding]
  rw [if_pos (by simp [List.length_append, hs, hp])]
  rw [List.take_append_of_le_length (by omega), List.take_of_length_le (by omega)]
  rw [List.drop_append_of_le_length (by omega), List.drop_of_length_le (by omega)]
  simp [← hd]

/-- `PeerId::from(keypair.public())`: the protobuf `PublicKey` message
for the ed25519 public key (36 bytes), wrapped in an identity multihash
(code 0, length 36) since it is at most 42 bytes long. -/
def peerIdFrom (publicKey : List Nat) : List Nat :=
  0 :: 36 :: (8 :: 1 :: 18 :: 32 :: publicKey)

/-! ## Filesystem model.

A filesystem state maps a path (list of segments) to file contents, a
directory flag, and a permission mode.  The effect of the store is the
trace of operations it performs, applied in order. -/

/-- A filesystem state. -/
structure FsState where
  files : List String → Option (List Nat)
  dirs : List String → Bool
  modes : List String → Option Nat

/-- A filesystem operation performed by the store. -/
inductive FsOp where
  | createDirAll : List String → FsOp
  | setPerm : List String → Nat → FsOp
  | createWrite : List String → List Nat → FsOp
deriving DecidableEq

/-- Semantics of one operation.  `create_dir_all` creates the directory
and its ancestors; `set_permissions` overwrites the mode of an existing
path; `File::create` plus `write_all` truncates or creates the file,
keeping an existing mode and giving a fresh file the process default
mode 0644. -/
def applyOp (st : FsState) : FsOp → FsState
  | .createDirAll p =>
      { st with dirs := fun q => q.isPrefixOf p || st.dirs q }
  | .setPerm p m =>
      { st with modes := fun q => if q = p then some m else st.modes q }
  | .createWrite p content =>
      { st with
        files := fun q => if q = p then some content else st.files q,
        modes := fun q => if q = p then some ((st.modes p).getD 0o644) else st.modes q }

/-- Apply a trace of operations in order. -/
def applyOps (st : FsState) (ops : List FsOp) : FsState :=
  ops.foldl applyOp st

/-- The empty filesystem. -/
def emptyFs : FsState := ⟨fun _ => none, fun _ => false, fun _ => none⟩

/-! ## `src/utils/peer_id.rs` — the Secure Store.

The home-directory collaborator (`UserDirectoryProvider`) is modelled
by its result: `Option (List String)`, the home directory path if one
was resolved.  Errors distinguish the three kinds the code produces:
the literal "Home directory not found" string error, IO errors from
`File::open`, and decode errors from base64 or protobuf decoding. -/

/-- The errors the store can surface. -/
inductive StoreError where
  | homeDirectoryNotFound : StoreError
  | ioError : StoreError
  | decodeError : StoreError
deriving DecidableEq

/-- `DEFAULT_PATH` in `peer_id.rs`: the two fixed path segments under
the home directory. -/
def DEFAULT_PATH : List String := [".chaincraft", "keypair.key"]

/-- `PATH_PERMISSIONS` in `peer_id.rs`. -/
def PATH_PERMISSIONS : Nat := 0o700

/-- `FILE_PERMISSIONS` in `peer_id.rs`. -/
def FILE_PERMISSIONS : Nat := 0o600

/-- The key file path: the fold of `path.join` over `DEFAULT_PATH`
starting from the home directory. -/
def keyFilePath (home : List String) : List String :=
  DEFAULT_PATH.foldl (fun path component => path ++ [component]) home

/-- `seed_phrase_to_bytes` in `peer_id.rs`: hash the phrase bytes with
SHA3-256; the final `try_into().ok()` succeeds exactly when the digest
has 32 bytes. -/
def seed_phrase_to_bytes (seed_phrase : Option (List Nat)) : Option (List Nat) :=
  match seed_phrase with
  | none => none
  | some seed =>
      let result := sha3_256 seed
      if result.length = 32 then some result else none

/-- `generate_keypair` in `peer_id.rs` (and identically in `main.rs`):
with a seed, `ed25519_from_bytes(seed).unwrap()` — `none` models the
panic of the `unwrap`; without a seed, a fresh random keypair. -/
def generate_keypair (pubOf : List Nat → List Nat) (secret_key_seed : Option (List Nat))
    (rng : List Nat) : Option Keypair :=
  match secret_key_seed with
  | some seed => ed25519_from_bytes pubOf seed
  | none => some (generate_ed25519 pubOf rng)

/-- `save_keypair` in `peer_id.rs`: protobuf-encode, base64-encode,
then, if a home directory resolves, create the parent directory, set
its mode to 0700, write the encoded text to the key file and set its
mode to 0600; otherwise fail with the home-directory error.  The result
is the trace of filesystem operations performed, in order. -/
def save_keypair (k : Keypair) (provider : Option (List String)) :
    Except StoreError (List FsOp) :=
  let encoded := to_protobuf_encoding k
  let encodedBase64 := encodeB64 encoded
  match provider with
  | some home_dir =>
      let file_path := keyFilePath home_dir
      let parent_dir := file_path.dropLast
      Except.ok
        [FsOp.createDirAll parent_dir,
         FsOp.setPerm parent_dir PATH_PERMISSIONS,
         FsOp.createWrite file_path encodedBase64,
         FsOp.setPerm file_path FILE_PERMISSIONS]
  | none => Except.error StoreError.homeDirectoryNotFound

/-- `generate_peer_id` in `peer_id.rs` (the load / lookup flow): if a
home directory resolves, open and read the key file, base64-decode,
protobuf-decode, and derive the peer id from the public key; otherwise
fail with the home-directory error. -/
def generate_peer_id (pubOf : List Nat → List Nat) (provider : Option (List String))
    (st : FsState) : Except StoreError (List Nat) :=
  match provider with
  | some home_dir =>
      let file_path := keyFilePath home_dir
      match st.files file_path with
      | none => Except.error StoreError.ioError
      | some content =>
          match decodeB64 content with
          | none => Except.error StoreError.decodeError
          | some encoded_secret =>
              match from_protobuf_encoding pubOf encoded_secret with
              | none => Except.error StoreError.decodeError
              | some keypair => Except.ok (peerIdFrom keypair.public)
  | none => Except.error StoreError.homeDirectoryNotFound

/-- `generate_new_keypair_and_peer_id` in `peer_id.rs` (the new-identity
flow): derive the seed, generate the keypair, save it, then re-read the
file through `generate_peer_id` to compute the reported id.  The outer
`Option` models the `unwrap` panic inside `generate_keypair`; the
returned state is the filesystem after the save. -/
def generate_new_keypair_and_peer_id (pubOf : List Nat → List Nat)
    (seed_phrase : Option (List Nat)) (rng : List Nat)
    (provider : Option (List String)) (st : FsState) :
    Option (FsState × Except StoreError (List Nat)) :=
  let secret_key_seed := seed_phrase_to_bytes seed_phrase
  match generate_keypair pubOf secret_key_seed rng with
  | none => none
  | some keypair =>
      match save_keypair keypair provider with
      | Except.error e => some (st, Except.error e)
      | Except.ok ops =>
          let st2 := applyOps st ops
          some (st2, generate_peer_id pubOf provider st2)

/-- The key file path is the home directory followed by the two fixed
segments. -/
theorem keyFilePath_eq (home : List String) :
    keyFilePath home = home ++ [".chaincraft", "keypair.key"] := by
  simp [keyFilePath, DEFAULT_PATH]

/-- The parent of the key file path is the application directory. -/
theorem keyFilePath_dropLast (home : List String) :
    (keyFilePath home).dropLast = home ++ [".chaincraft"] := by
  rw [keyFilePath_eq]
  rw [show home ++ [".chaincraft", "keypair.key"]
      = (home ++ [".chaincraft"]) ++ ["keypair.key"] by simp]
  exact List.dropLast_concat

/-! ## `src/main.rs` — the process entry point.

`main.rs` does not use the Secure Store module: it carries its own
`save_keypair` and `generate_peer_id` over the one-segment relative
path `DEFAULT_PATH = "keypair.key"`, resolved against the current
working directory `cwd`, with no home-directory collaborator and no
permission handling. -/

/-- `DEFAULT_PATH` in `main.rs`: a one-segment relative path. -/
def MainRs.DEFAULT_PATH : String := "keypair.key"

/-- `seed_phrase_to_bytes` in `main.rs`: same hash, but the phrase is
not optional. -/
def MainRs.seed_phrase_to_bytes (seed_phrase : List Nat) : Option (List Nat) :=
  let result := sha3_256 seed_phrase
  if result.length = 32 then some result else none

/-- `save_keypair` in `main.rs`: protobuf-encode, base64-encode, write
to `keypair.key` in the current working directory.  No directory
creation, no permission setting. -/
def MainRs.save_keypair (k : Keypair) (cwd : List String) :
    Except StoreError (List FsOp) :=
  let encoded_secret := to_protobuf_encoding k
  let encoded_secret_base64 := encodeB64 encoded_secret
  Except.ok [FsOp.createWrite (cwd ++ [MainRs.DEFAULT_PATH]) encoded_secret_base64]

/-- `generate_peer_id` in `main.rs`: open and read `keypair.key` in the
current working directory, base64-decode, protobuf-decode, derive the
peer id. -/
def MainRs.generate_peer_id (pubOf : List Nat → List Nat) (cwd : List String)
    (st : FsState) : Except StoreError (List Nat) :=
  match st.files (cwd ++ [MainRs.DEFAULT_PATH]) with
  | none => Except.error StoreError.ioError
  | some content =>
      match decodeB64 content with
      | none => Except.error StoreError.decodeError
      | some encoded_secret =>
          match from_protobuf_encoding pubOf encoded_secret with
          | none => Except.error StoreError.decodeError
          | some keypair => Except.ok (peerIdFrom keypair.public)

/-- `generate_new_peer_id` in `main.rs`: derive the seed from the
(mandatory) phrase, generate the keypair, save it, then re-read the
file to compute the reported id.  The outer `Option` models the
`unwrap` panic inside `generate_keypair`. -/
def MainRs.generate_new_peer_id (pubOf : List Nat → List Nat) (seed_phrase : List Nat)
    (rng : List Nat) (cwd : List String) (st : FsState) :
    Option (FsState × Except StoreError (List Nat)) :=
  let secret_key_seed := MainRs.seed_phrase_to_bytes seed_phrase
  match generate_keypair pubOf secret_key_seed rng with
  | none => none
  | some keypair =>
      match MainRs.save_keypair keypair cwd with
      | Except.error e => some (st, Except.error e)
      | Except.ok ops =>
          let st2 := applyOps st ops
          some (st2, MainRs.generate_peer_id pubOf cwd st2)

/-- The command-line arguments parsed by clap in `main.rs`. -/
structure Args where
  seed_phrase : Option (List Nat)
  new_peer_id : Bool
  read_peer_id : Bool
deriving DecidableEq

/-- An output channel of the process. -/
inductive Channel where
  | stdout : Channel
  | stderr : Channel
deriving DecidableEq

/-- The one message `main` prints per invocation. -/
inductive MainMsg where
  | peerId : List Nat → MainMsg
  | generationError : StoreError → MainMsg
  | readError : StoreError → MainMsg
  | usage : MainMsg
deriving DecidableEq

/-- Where each message goes: the peer id on standard output via
`println`, every error via `eprintln` on standard error. -/
def MainMsg.channel : MainMsg → Channel
  | .peerId _ => .stdout
  | _ => .stderr

/-- `main` in `main.rs`: dispatch on the flags.  The new-identity flow
runs only when `--new-peer-id` is set AND a seed phrase is present; an
invocation with `--read-peer-id` (and not the former case) runs the
lookup flow; anything else prints the usage error.  The result is the
message printed, the final filesystem state, and the value returned by
`main` — always `Ok(())`.  The outer `Option` models the `unwrap`
panic reachable through `generate_new_peer_id`. -/
def mainRun (pubOf : List Nat → List Nat) (args : Args) (rng : List Nat)
    (cwd : List String) (st : FsState) :
    Option (MainMsg × FsState × Except StoreError Unit) :=
  if args.new_peer_id ∧ args.seed_phrase.isSome then
    match args.seed_phrase with
    | some phrase =>
        match MainRs.generate_new_peer_id pubOf phrase rng cwd st with
        | none => none
        | some (st2, Except.ok peer_id) =>
            some (MainMsg.peerId peer_id, st2, Except.ok ())
        | some (st2, Except.error e) =>
            some (MainMsg.generationError e, st2, Except.ok ())
    | none => none
  else if args.read_peer_id then
    match MainRs.generate_peer_id pubOf cwd st with
    | Except.ok peer_id => some (MainMsg.peerId peer_id, st, Except.ok ())
    | Except.error e => some (MainMsg.readError e, st, Except.ok ())
  else
    some (MainMsg.usage, st, Except.ok ())

/-! ## Claim theorems. -/

/-- Every byte of the protobuf encoding of a well-formed keypair is
below 256. -/
theorem to_protobuf_bytes_lt (pubOf : List Nat → List Nat) (k : Keypair)
    (hwf : KeypairWF pubOf k) : ∀ b ∈ to_protobuf_encoding k, b < 256 := by
  obtain ⟨_, _, hs, hp, _⟩ := hwf
  intro b hb
  simp [to_protobuf_encoding] at hb
  rcases hb with h | h | h | h | h | h
  · omega
  · omega
  · omega
  · omega
  · exact hs b h
  · exact hp b h

/-- A concrete public-key derivation used by the witnesses. -/
def constPub : List Nat → List Nat := fun s => s

/-- A concrete well-formed keypair used by the witnesses. -/
def kp0 : Keypair := ⟨List.replicate 32 0, List.replicate 32 0⟩

/-- A concrete home directory used by the witnesses. -/
def home0 : List String := ["home"]

/-- A concrete working directory used by the witnesses. -/
def cwd0 : List String := ["cwd"]

/-- Concrete CSPRNG output used by the witnesses. -/
def rng0 : List Nat := List.replicate 32 7

/-- A second concrete CSPRNG output used by the witnesses. -/
def rngA : List Nat := List.replicate 32 9

/-- A concrete 32-byte seed used by the witnesses. -/
def seed0 : List Nat := List.replicate 32 1

/-- The save trace of the Secure Store for `kp0` under `home0`. -/
def saveOpsKp0 : List FsOp :=
  [FsOp.createDirAll ["home", ".chaincraft"],
   FsOp.setPerm ["home", ".chaincraft"] PATH_PERMISSIONS,
   FsOp.createWrite ["home", ".chaincraft", "keypair.key"]
     (encodeB64 (to_protobuf_encoding kp0)),
   FsOp.setPerm ["home", ".chaincraft", "keypair.key"] FILE_PERMISSIONS]

/-- Claim C1: for every keypair `k`, saving it through the Secure Store
(protobuf-encode, base64-encode, write the key file) and then loading
(read the file, base64-decode, protobuf-decode) succeeds, the decoding
reconstructs the full keypair `k`, and the loaded public key — hence
the derived peer id — equals that of `k`. -/
theorem secure_store_roundtrip (pubOf : List Nat → List Nat) (k : Keypair)
    (home : List String) (st : FsState) (hwf : KeypairWF pubOf k) :
    ∃ ops, save_keypair k (some home) = Except.ok ops ∧
      decodeB64 (encodeB64 (to_protobuf_encoding k)) = some (to_protobuf_encoding k) ∧
      from_protobuf_encoding pubOf (to_protobuf_encoding k) = some k ∧
      generate_peer_id pubOf (some home) (applyOps st ops) =
        Except.ok (peerIdFrom k.public) := by
  have hdec : decodeB64 (encodeB64 (to_protobuf_encoding k)) = some (to_protobuf_encoding k) :=
    decodeB64_encodeB64 _ (to_protobuf_bytes_lt pubOf k hwf)
  have hpb := from_to_protobuf pubOf k hwf
  refine ⟨[FsOp.createDirAll (keyFilePath home).dropLast,
           FsOp.setPerm (keyFilePath home).dropLast PATH_PERMISSIONS,
           FsOp.createWrite (keyFilePath home) (encodeB64 (to_protobuf_encoding k)),
           FsOp.setPerm (keyFilePath home) FILE_PERMISSIONS], rfl, hdec, hpb, ?_⟩
  have hfile : (applyOps st
      [FsOp.createDirAll (keyFilePath home).dropLast,
       FsOp.setPerm (keyFilePath home).dropLast PATH_PERMISSIONS,
       FsOp.createWrite (keyFilePath home) (encodeB64 (to_protobuf_encoding k)),
       FsOp.setPerm (keyFilePath home) FILE_PERMISSIONS]).files (keyFilePath home) =
      some (encodeB64 (to_protobuf_encoding k)) := by
    simp [applyOps, applyOp]
  simp [generate_peer_id, hfile, hdec, hpb]

/-- Witness for C1 at a concrete keypair, derivation function, home
directory and initial filesystem. -/
theorem secure_store_roundtrip_witness :
    ∃ ops, save_keypair kp0 (some home0) = Except.ok ops ∧
      decodeB64 (encodeB64 (to_protobuf_encoding kp0)) = some (to_protobuf_encoding kp0) ∧
      from_protobuf_encoding constPub (to_protobuf_encoding kp0) = some kp0 ∧
      generate_peer_id constPub (some home0) (applyOps emptyFs ops) =
        Except.ok (peerIdFrom kp0.public) :=
  secure_store_roundtrip constPub kp0 home0 emptyFs
    ⟨by simp [kp0], by simp [kp0], by simp [kp0, List.mem_replicate],
     by simp [kp0, List.mem_replicate], rfl⟩

/-- Claim C2: seed derivation is total and deterministic — for every
present phrase it returns `some` of the 32-byte SHA3-256 digest (a pure
function of the phrase, so equal phrases give equal bytes), and it
returns `none` exactly when no phrase was supplied. -/
theorem seed_derivation_total :
    (∀ p : List Nat, seed_phrase_to_bytes (some p) = some (sha3_256 p) ∧
      (sha3_256 p).length = 32) ∧
    seed_phrase_to_bytes none = none := by
  constructor
  · intro p
    refine ⟨?_, sha3_256_length p⟩
    simp [seed_phrase_to_bytes, sha3_256_length]
  · rfl

/-- Claim C3: deterministic keypair generation — for every 32-byte seed,
the result of `generate_keypair(Some(seed))` does not depend on the
randomness source at all, and is the fixed keypair built from the seed;
in particular two calls agree bit for bit. -/
theorem generate_keypair_deterministic (pubOf : List Nat → List Nat)
    (s rng1 rng2 : List Nat) (h : s.length = 32) :
    generate_keypair pubOf (some s) rng1 = generate_keypair pubOf (some s) rng2 ∧
    generate_keypair pubOf (some s) rng1 = some ⟨s, pubOf s⟩ := by
  refine ⟨rfl, ?_⟩
  simp [generate_keypair, ed25519_from_bytes, h]

/-- Witness for C3 at a concrete seed and two distinct randomness
sources. -/
theorem generate_keypair_deterministic_witness :
    generate_keypair constPub (some seed0) rng0 = generate_keypair constPub (some seed0) rngA ∧
    generate_keypair constPub (some seed0) rng0 = some ⟨seed0, constPub seed0⟩ :=
  generate_keypair_deterministic constPub seed0 rng0 rngA (by simp [seed0])

/-- Claim C9: keypair construction from a derived seed never fails —
for every phrase option, feeding the seed-derivation output to
`generate_keypair` never reaches the failure (`unwrap` panic) branch,
because the derived seed always has the 32-byte length the ed25519
primitive requires. -/
theorem key_construction_never_fails (pubOf : List Nat → List Nat)
    (sp : Option (List Nat)) (rng : List Nat) :
    (generate_keypair pubOf (seed_phrase_to_bytes sp) rng).isSome = true := by
  cases sp with
  | none => rfl
  | some p =>
      simp [seed_phrase_to_bytes, generate_keypair, ed25519_from_bytes, sha3_256_length]

/-- A list is a prefix of itself under `isPrefixOf`. -/
theorem isPrefixOf_self {α : Type} [BEq α] [LawfulBEq α] (l : List α) :
    l.isPrefixOf l = true := by
  induction l with
  | nil => rfl
  | cons a t ih => simp [List.isPrefixOf, ih]

/-- Claim C4 (amended): every save and load performed by the Secure
Store of `peer_id.rs` touches exactly `<home>/.chaincraft/keypair.key`
(and its parent directory), where `<home>` is the directory returned by
the home-directory collaborator — the save trace is fixed and the load
depends only on that one file; the save and load of `main.rs`, however,
use the one-segment relative path `keypair.key` in the current working
directory instead. -/
theorem storage_path_amended (pubOf : List Nat → List Nat) (k : Keypair)
    (home cwd : List String) (st st' : FsState)
    (hagree : st.files (home ++ [".chaincraft", "keypair.key"]) =
      st'.files (home ++ [".chaincraft", "keypair.key"]))
    (hagreeMain : st.files (cwd ++ ["keypair.key"]) = st'.files (cwd ++ ["keypair.key"])) :
    save_keypair k (some home) = Except.ok
      [FsOp.createDirAll (home ++ [".chaincraft"]),
       FsOp.setPerm (home ++ [".chaincraft"]) PATH_PERMISSIONS,
       FsOp.createWrite (home ++ [".chaincraft", "keypair.key"])
         (encodeB64 (to_protobuf_encoding k)),
       FsOp.setPerm (home ++ [".chaincraft", "keypair.key"]) FILE_PERMISSIONS] ∧
    generate_peer_id pubOf (some home) st = generate_peer_id pubOf (some home) st' ∧
    MainRs.save_keypair k cwd = Except.ok
      [FsOp.createWrite (cwd ++ ["keypair.key"]) (encodeB64 (to_protobuf_encoding k))] ∧
    MainRs.generate_peer_id pubOf cwd st = MainRs.generate_peer_id pubOf cwd st' := by
  have h0 : save_keypair k (some home) = Except.ok
      [FsOp.createDirAll (keyFilePath home).dropLast,
       FsOp.setPerm (keyFilePath home).dropLast PATH_PERMISSIONS,
       FsOp.createWrite (keyFilePath home) (encodeB64 (to_protobuf_encoding k)),
       FsOp.setPerm (keyFilePath home) FILE_PERMISSIONS] := rfl
  refine ⟨?_, ?_, rfl, ?_⟩
  · rw [h0, keyFilePath_dropLast, keyFilePath_eq]
  · simp only [generate_peer_id, keyFilePath_eq]
    rw [hagree]
  · simp only [MainRs.generate_peer_id, MainRs.DEFAULT_PATH]
    rw [hagreeMain]

/-- Witness for C4 (amended) at concrete inputs. -/
theorem storage_path_amended_witness :
    save_keypair kp0 (some home0) = Except.ok
      [FsOp.createDirAll (home0 ++ [".chaincraft"]),
       FsOp.setPerm (home0 ++ [".chaincraft"]) PATH_PERMISSIONS,
       FsOp.createWrite (home0 ++ [".chaincraft", "keypair.key"])
         (encodeB64 (to_protobuf_encoding kp0)),
       FsOp.setPerm (home0 ++ [".chaincraft", "keypair.key"]) FILE_PERMISSIONS] ∧
    generate_peer_id constPub (some home0) emptyFs =
      generate_peer_id constPub (some home0) emptyFs ∧
    MainRs.save_keypair kp0 cwd0 = Except.ok
      [FsOp.createWrite (cwd0 ++ ["keypair.key"]) (encodeB64 (to_protobuf_encoding kp0))] ∧
    MainRs.generate_peer_id constPub cwd0 emptyFs =
      MainRs.generate_peer_id constPub cwd0 emptyFs :=
  storage_path_amended constPub kp0 home0 cwd0 emptyFs emptyFs rfl rfl

/-- Counterexample to Claim C4 as stated: the `main.rs` save succeeds
yet its trace writes `<cwd>/keypair.key` — a path that does not contain
the application directory segment at all, even when the current
directory is the home directory itself. -/
theorem storage_path_cex :
    MainRs.save_keypair kp0 ["home"] = Except.ok
      [FsOp.createWrite ["home", "keypair.key"] (encodeB64 (to_protobuf_encoding kp0))] ∧
    ((["home", "keypair.key"] : List String).contains ".chaincraft") = false := by
  exact ⟨rfl, rfl⟩

/-- Claim C5 (amended): after every successful Secure Store save, from
any starting filesystem (including one where the key file already
existed with looser permissions), the key file holds the encoded key
with mode 0600 and its parent directory exists with mode 0700, the
permission-setting operations coming strictly after the directory
creation and the content write in the trace; the `main.rs` save,
however, performs a bare write with no permission operation at all. -/
theorem save_permissions_amended (k : Keypair) (home cwd : List String)
    (st : FsState) (ops : List FsOp)
    (hsave : save_keypair k (some home) = Except.ok ops) :
    ops = [FsOp.createDirAll (home ++ [".chaincraft"]),
           FsOp.setPerm (home ++ [".chaincraft"]) PATH_PERMISSIONS,
           FsOp.createWrite (home ++ [".chaincraft", "keypair.key"])
             (encodeB64 (to_protobuf_encoding k)),
           FsOp.setPerm (home ++ [".chaincraft", "keypair.key"]) FILE_PERMISSIONS] ∧
    (applyOps st ops).modes (home ++ [".chaincraft", "keypair.key"]) = some FILE_PERMISSIONS ∧
    (applyOps st ops).modes (home ++ [".chaincraft"]) = some PATH_PERMISSIONS ∧
    (applyOps st ops).dirs (home ++ [".chaincraft"]) = true ∧
    (applyOps st ops).files (home ++ [".chaincraft", "keypair.key"]) =
      some (encodeB64 (to_protobuf_encoding k)) ∧
    MainRs.save_keypair k cwd = Except.ok
      [FsOp.createWrite (cwd ++ ["keypair.key"]) (encodeB64 (to_protobuf_encoding k))] := by
  have h0 : save_keypair k (some home) = Except.ok
      [FsOp.createDirAll (keyFilePath home).dropLast,
       FsOp.setPerm (keyFilePath home).dropLast PATH_PERMISSIONS,
       FsOp.createWrite (keyFilePath home) (encodeB64 (to_protobuf_encoding k)),
       FsOp.setPerm (keyFilePath home) FILE_PERMISSIONS] := rfl
  rw [h0] at hsave
  injection hsave with h1
  have hops : ops = [FsOp.createDirAll (home ++ [".chaincraft"]),
      FsOp.setPerm (home ++ [".chaincraft"]) PATH_PERMISSIONS,
      FsOp.createWrite (home ++ [".chaincraft", "keypair.key"])
        (encodeB64 (to_protobuf_encoding k)),
      FsOp.setPerm (home ++ [".chaincraft", "keypair.key"]) FILE_PERMISSIONS] := by
    rw [← h1, keyFilePath_dropLast, keyFilePath_eq]
  subst hops
  have hne : (home ++ [".chaincraft"]) ≠ (home ++ [".chaincraft", "keypair.key"]) := by
    intro hcontra
    have := congrArg List.length hcontra
    simp at this
  refine ⟨rfl, ?_, ?_, ?_, ?_, rfl⟩
  · simp [applyOps, applyOp]
  · simp [applyOps, applyOp, hne]
  · simp [applyOps, applyOp, isPrefixOf_self]
  · simp [applyOps, applyOp]

/-- Witness for C5 (amended) at concrete inputs. -/
theorem save_permissions_amended_witness :
    saveOpsKp0 = [FsOp.createDirAll (home0 ++ [".chaincraft"]),
           FsOp.setPerm (home0 ++ [".chaincraft"]) PATH_PERMISSIONS,
           FsOp.createWrite (home0 ++ [".chaincraft", "keypair.key"])
             (encodeB64 (to_protobuf_encoding kp0)),
           FsOp.setPerm (home0 ++ [".chaincraft", "keypair.key"]) FILE_PERMISSIONS] ∧
    (applyOps emptyFs saveOpsKp0).modes (home0 ++ [".chaincraft", "keypair.key"]) =
      some FILE_PERMISSIONS ∧
    (applyOps emptyFs saveOpsKp0).modes (home0 ++ [".chaincraft"]) = some PATH_PERMISSIONS ∧
    (applyOps emptyFs saveOpsKp0).dirs (home0 ++ [".chaincraft"]) = true ∧
    (applyOps emptyFs saveOpsKp0).files (home0 ++ [".chaincraft", "keypair.key"]) =
      some (encodeB64 (to_protobuf_encoding kp0)) ∧
    MainRs.save_keypair kp0 cwd0 = Except.ok
      [FsOp.createWrite (cwd0 ++ ["keypair.key"]) (encodeB64 (to_protobuf_encoding kp0))] :=
  save_permissions_amended kp0 home0 cwd0 emptyFs saveOpsKp0 rfl

/-- The trace of the `main.rs` save of `kp0` in the directory
`["home"]`. -/
def mainOps0 : List FsOp :=
  [FsOp.createWrite ["home", "keypair.key"] (encodeB64 (to_protobuf_encoding kp0))]

/-- A filesystem where the `main.rs` key file already exists with the
loose mode 0666. -/
def looseFs : FsState :=
  ⟨fun _ => none, fun _ => false,
   fun q => if q = ["home", "keypair.key"] then some 0o666 else none⟩

/-- Counterexample to Claim C5 as stated: the `main.rs` save succeeds
and writes the key file, but performs no permission operation — a
pre-existing loose mode 0666 survives the save, so the key file does
not end with mode 0600. -/
theorem save_permissions_cex :
    MainRs.save_keypair kp0 ["home"] = Except.ok mainOps0 ∧
    (applyOps looseFs mainOps0).files ["home", "keypair.key"] =
      some (encodeB64 (to_protobuf_encoding kp0)) ∧
    (applyOps looseFs mainOps0).modes ["home", "keypair.key"] = some 0o666 := by
  refine ⟨rfl, ?_, ?_⟩ <;> simp [applyOps, applyOp, mainOps0, looseFs]

/-- Claim C6: whenever the home-directory collaborator returns nothing,
the save and the load both fail with the distinct home-directory-not-
found error (not an IO error), and hence the new-identity flow and the
lookup flow both fail with that same error. -/
theorem home_directory_not_found (pubOf : List Nat → List Nat) (k : Keypair)
    (st : FsState) (sp : Option (List Nat)) (rng : List Nat) :
    save_keypair k none = Except.error StoreError.homeDirectoryNotFound ∧
    generate_peer_id pubOf none st = Except.error StoreError.homeDirectoryNotFound ∧
    generate_new_keypair_and_peer_id pubOf sp rng none st =
      some (st, Except.error StoreError.homeDirectoryNotFound) := by
  refine ⟨rfl, rfl, ?_⟩
  cases sp with
  | none => rfl
  | some p =>
      simp [generate_new_keypair_and_peer_id, seed_phrase_to_bytes, sha3_256_length,
        generate_keypair, ed25519_from_bytes, save_keypair]

/-- Claim C7: the reported identifier of the new-identity flow is the
one computed by the loader from the filesystem state left by the save —
both in the Secure Store flow and in the `main.rs` flow, the id printed
is `generate_peer_id` applied to the post-save state, not a function of
the in-memory keypair directly. -/
theorem new_identity_rereads (pubOf : List Nat → List Nat) (sp : Option (List Nat))
    (ph rng : List Nat) (provider : Option (List String)) (cwd : List String)
    (st : FsState) (k k2 : Keypair) (ops : List FsOp)
    (hk : generate_keypair pubOf (seed_phrase_to_bytes sp) rng = some k)
    (hsave : save_keypair k provider = Except.ok ops)
    (hk2 : generate_keypair pubOf (MainRs.seed_phrase_to_bytes ph) rng = some k2) :
    generate_new_keypair_and_peer_id pubOf sp rng provider st =
      some (applyOps st ops, generate_peer_id pubOf provider (applyOps st ops)) ∧
    MainRs.generate_new_peer_id pubOf ph rng cwd st =
      some (applyOps st
          [FsOp.createWrite (cwd ++ [MainRs.DEFAULT_PATH]) (encodeB64 (to_protobuf_encoding k2))],
        MainRs.generate_peer_id pubOf cwd (applyOps st
          [FsOp.createWrite (cwd ++ [MainRs.DEFAULT_PATH])
            (encodeB64 (to_protobuf_encoding k2))])) := by
  constructor
  · simp [generate_new_keypair_and_peer_id, hk, hsave]
  · simp [MainRs.generate_new_peer_id, hk2, MainRs.save_keypair]

/-- The keypair the Secure Store flow generates from `rng0` without a
seed phrase. -/
def kpr0 : Keypair := generate_ed25519 constPub rng0

/-- The keypair the `main.rs` flow generates from the empty seed
phrase. -/
def kph0 : Keypair := ⟨sha3_256 [], constPub (sha3_256 [])⟩

/-- The Secure Store save trace for `kpr0` under `home0`. -/
def saveOpsKpr0 : List FsOp :=
  [FsOp.createDirAll ["home", ".chaincraft"],
   FsOp.setPerm ["home", ".chaincraft"] PATH_PERMISSIONS,
   FsOp.createWrite ["home", ".chaincraft", "keypair.key"]
     (encodeB64 (to_protobuf_encoding kpr0)),
   FsOp.setPerm ["home", ".chaincraft", "keypair.key"] FILE_PERMISSIONS]

/-- Witness for C7 at concrete inputs. -/
theorem new_identity_rereads_witness :
    generate_new_keypair_and_peer_id constPub none rng0 (some home0) emptyFs =
      some (applyOps emptyFs saveOpsKpr0,
        generate_peer_id constPub (some home0) (applyOps emptyFs saveOpsKpr0)) ∧
    MainRs.generate_new_peer_id constPub [] rng0 cwd0 emptyFs =
      some (applyOps emptyFs
          [FsOp.createWrite (cwd0 ++ [MainRs.DEFAULT_PATH]) (encodeB64 (to_protobuf_encoding kph0))],
        MainRs.generate_peer_id constPub cwd0 (applyOps emptyFs
          [FsOp.createWrite (cwd0 ++ [MainRs.DEFAULT_PATH])
            (encodeB64 (to_protobuf_encoding kph0))])) :=
  new_identity_rereads constPub none [] rng0 (some home0) cwd0 emptyFs kpr0 kph0 saveOpsKpr0
    rfl rfl
    (by simp [generate_keypair, MainRs.seed_phrase_to_bytes, sha3_256_length,
      ed25519_from_bytes, kph0])

/-- Claim C8 (amended): the process surface dispatches as follows — the
new-identity flow runs only when the new-identity flag is set AND a
seed phrase is supplied (the seed phrase is mandatory, not optional),
and it then ignores the read flag (the flags are not mutually
exclusive: the new-identity combination silently takes precedence); in
every other case — any phrase option without the new-identity flag, or
the new-identity flag without a phrase — the read flag selects the
lookup flow, and with the read flag also absent the usage error is
printed; the peer id goes to standard output, every error and the
usage message to standard error. -/
theorem process_surface_amended (pubOf : List Nat → List Nat) (rng : List Nat)
    (cwd : List String) (st : FsState) (sp : Option (List Nat)) (ph : List Nat) (r : Bool) :
    mainRun pubOf ⟨some ph, true, r⟩ rng cwd st =
      (MainRs.generate_new_peer_id pubOf ph rng cwd st).map
        (fun p => (match p.2 with
          | Except.ok pid => MainMsg.peerId pid
          | Except.error e => MainMsg.generationError e, p.1, Except.ok ())) ∧
    mainRun pubOf ⟨sp, false, true⟩ rng cwd st =
      some (match MainRs.generate_peer_id pubOf cwd st with
        | Except.ok pid => MainMsg.peerId pid
        | Except.error e => MainMsg.readError e, st, Except.ok ()) ∧
    mainRun pubOf ⟨none, true, true⟩ rng cwd st =
      some (match MainRs.generate_peer_id pubOf cwd st with
        | Except.ok pid => MainMsg.peerId pid
        | Except.error e => MainMsg.readError e, st, Except.ok ()) ∧
    mainRun pubOf ⟨sp, false, false⟩ rng cwd st = some (MainMsg.usage, st, Except.ok ()) ∧
    mainRun pubOf ⟨none, true, false⟩ rng cwd st = some (MainMsg.usage, st, Except.ok ()) ∧
    (∀ pid, (MainMsg.peerId pid).channel = Channel.stdout) ∧
    (∀ e, (MainMsg.generationError e).channel = Channel.stderr) ∧
    (∀ e, (MainMsg.readError e).channel = Channel.stderr) ∧
    MainMsg.usage.channel = Channel.stderr := by
  refine ⟨?_, ?_, ?_, ?_, rfl, fun pid => rfl, fun e => rfl, fun e => rfl, rfl⟩
  · cases h : MainRs.generate_new_peer_id pubOf ph rng cwd st with
    | none => simp [mainRun, h]
    | some p =>
        rcases p with ⟨st2, res⟩
        cases res with
        | ok pid => simp [mainRun, h]
        | error e => simp [mainRun, h]
  · cases h : MainRs.generate_peer_id pubOf cwd st with
    | ok pid => simp [mainRun, h]
    | error e => simp [mainRun, h]
  · cases h : MainRs.generate_peer_id pubOf cwd st with
    | ok pid => simp [mainRun, h]
    | error e => simp [mainRun, h]
  · simp [mainRun]

/-- The `main.rs` loader returns the peer id of `k` whenever the key
file holds a base64 text that decodes to the protobuf encoding of
`k`. -/
theorem generate_peer_id_of_file (pubOf : List Nat → List Nat) (cwd : List String)
    (st : FsState) (k : Keypair) (content : List Nat)
    (hfile : st.files (cwd ++ [MainRs.DEFAULT_PATH]) = some content)
    (hdec : decodeB64 content = some (to_protobuf_encoding k))
    (hpb : from_protobuf_encoding pubOf (to_protobuf_encoding k) = some k) :
    MainRs.generate_peer_id pubOf cwd st = Except.ok (peerIdFrom k.public) := by
  simp [MainRs.generate_peer_id, hfile, hdec, hpb]

/-- When the new-identity flow of `main.rs` succeeds, `main` with the
new-identity flag and a seed phrase prints that peer id, whatever the
read flag. -/
theorem mainRun_new_ok (pubOf : List Nat → List Nat) (ph rng : List Nat)
    (cwd : List String) (st st2 : FsState) (r : Bool) (pid : List Nat)
    (hflow : MainRs.generate_new_peer_id pubOf ph rng cwd st = some (st2, Except.ok pid)) :
    mainRun pubOf ⟨some ph, true, r⟩ rng cwd st =
      some (MainMsg.peerId pid, st2, Except.ok ()) := by
  simp [mainRun, hflow]

/-- Counterexample to Claim C8 as stated: first, invoking the program
with the new-identity flag and no seed phrase does not run the
generation flow with a random key — it prints the usage error to
standard error, so the seed phrase is mandatory, not optional; second,
invoking it with both flags together and a seed phrase is not rejected
as conflicting — the new-identity flow runs and prints a peer id, so
the flags are not mutually exclusive. -/
theorem process_surface_cex :
    mainRun constPub ⟨none, true, false⟩ rng0 cwd0 emptyFs =
      some (MainMsg.usage, emptyFs, Except.ok ()) ∧
    MainMsg.usage.channel = Channel.stderr ∧
    mainRun constPub ⟨some [], true, true⟩ rng0 cwd0 emptyFs =
      some (MainMsg.peerId (peerIdFrom kph0.public),
        applyOps emptyFs
          [FsOp.createWrite (cwd0 ++ [MainRs.DEFAULT_PATH])
            (encodeB64 (to_protobuf_encoding kph0))],
        Except.ok ()) := by
  refine ⟨rfl, rfl, ?_⟩
  have hwf : KeypairWF constPub kph0 := by
    refine ⟨?_, ?_, ?_, ?_, rfl⟩
    · simp [kph0, sha3_256_length]
    · simp [kph0, constPub, sha3_256_length]
    · intro b hb
      apply sha3_256_bytes_lt []
      simpa [kph0] using hb
    · intro b hb
      apply sha3_256_bytes_lt []
      simpa [kph0, constPub] using hb
  have hflow : MainRs.generate_new_peer_id constPub [] rng0 cwd0 emptyFs =
      some (applyOps emptyFs
          [FsOp.createWrite (cwd0 ++ [MainRs.DEFAULT_PATH])
            (encodeB64 (to_protobuf_encoding kph0))],
        MainRs.generate_peer_id constPub cwd0 (applyOps emptyFs
          [FsOp.createWrite (cwd0 ++ [MainRs.DEFAULT_PATH])
            (encodeB64 (to_protobuf_encoding kph0))])) := by
    simp [MainRs.generate_new_peer_id, generate_keypair, MainRs.seed_phrase_to_bytes,
      sha3_256_length, ed25519_from_bytes, MainRs.save_keypair, kph0]
  have hfile : (applyOps emptyFs
      [FsOp.createWrite (cwd0 ++ [MainRs.DEFAULT_PATH])
        (encodeB64 (to_protobuf_encoding kph0))]).files (cwd0 ++ [MainRs.DEFAULT_PATH]) =
      some (encodeB64 (to_protobuf_encoding kph0)) := by
    simp [applyOps, applyOp]
  have hdec := decodeB64_encodeB64 _ (to_protobuf_bytes_lt constPub kph0 hwf)
  have hpb := from_to_protobuf constPub kph0 hwf
  have hload := generate_peer_id_of_file constPub cwd0
    (applyOps emptyFs
      [FsOp.createWrite (cwd0 ++ [MainRs.DEFAULT_PATH])
        (encodeB64 (to_protobuf_encoding kph0))])
    kph0 (encodeB64 (to_protobuf_encoding kph0)) hfile hdec hpb
  rw [hload] at hflow
  exact mainRun_new_ok constPub [] rng0 cwd0 emptyFs
    (applyOps emptyFs
      [FsOp.createWrite (cwd0 ++ [MainRs.DEFAULT_PATH])
        (encodeB64 (to_protobuf_encoding kph0))])
    true (peerIdFrom kph0.public) hflow

/-- Claim C10: whatever the arguments, the randomness, the working
directory and the filesystem, whenever `main` terminates normally it
returns `Ok(())` — failures of the selected identity operation are
reported only through the message printed to standard error, never
through the process exit result. -/
theorem main_always_ok (pubOf : List Nat → List Nat) (args : Args) (rng : List Nat)
    (cwd : List String) (st : FsState) (r : MainMsg × FsState × Except StoreError Unit)
    (h : mainRun pubOf args rng cwd st = some r) :
    r.2.2 = Except.ok () := by
  rcases args with ⟨sp, np, rp⟩
  cases sp with
  | some ph =>
      cases np with
      | true =>
          cases hres : MainRs.generate_new_peer_id pubOf ph rng cwd st with
          | none => simp [mainRun, hres] at h
          | some p =>
              rcases p with ⟨st2, res⟩
              cases res with
              | ok pid =>
                  simp [mainRun, hres] at h
                  subst h
                  rfl
              | error e =>
                  simp [mainRun, hres] at h
                  subst h
                  rfl
      | false =>
          cases rp with
          | true =>
              cases hres : MainRs.generate_peer_id pubOf cwd st with
              | ok pid =>
                  simp [mainRun, hres] at h
                  subst h
                  rfl
              | error e =>
                  simp [mainRun, hres] at h
                  subst h
                  rfl
          | false =>
              simp [mainRun] at h
              subst h
              rfl
  | none =>
      cases np with
      | true =>
          cases rp with
          | true =>
              cases hres : MainRs.generate_peer_id pubOf cwd st with
              | ok pid =>
                  simp [mainRun, hres] at h
                  subst h
                  rfl
              | error e =>
                  simp [mainRun, hres] at h
                  subst h
                  rfl
          | false =>
              simp [mainRun] at h
              subst h
              rfl
      | false =>
          cases rp with
          | true =>
              cases hres : MainRs.generate_peer_id pubOf cwd st with
              | ok pid =>
                  simp [mainRun, hres] at h
                  subst h
                  rfl
              | error e =>
                  simp [mainRun, hres] at h
                  subst h
                  rfl
          | false =>
              simp [mainRun] at h
              subst h
              rfl

/-- Witness for C10 at a concrete invocation. -/
theorem main_always_ok_witness :
    ((MainMsg.usage, emptyFs, Except.ok ()) :
      MainMsg × FsState × Except StoreError Unit).2.2 = Except.ok () :=
  main_always_ok constPub ⟨none, false, false⟩ rng0 cwd0 emptyFs
    (MainMsg.usage, emptyFs, Except.ok ()) rfl
